import Mathlib

/-!
Shallow embedding of `src/coinbook.py` (class `CoinBook`).

The Python class stores all state in redis under string keys; amounts are
Python floats, modelled here as exact rationals (`ℚ`), so "within floating
tolerance" statements become exact equalities.  The redis store is modelled
as an association list of key/record pairs; `redis.set` canonically removes
any previous binding of the key and appends the new one, `redis.delete`
removes all bindings of the key, and `redis.keys(pattern='p*')` returns the
keys that carry the prefix `p` (strategy names are taken to be free of glob
metacharacters, as in every use in the source).

The bittrex market client is the external price oracle: `get_ticker(t)`
yielding `ticker_data.get('result', {}).get('Last')` is modelled as a
function `String → Option ℚ` from ticker name to the `Last` price (with
`none` for an absent result).  Python exceptions are modelled by an error
type: a raised exception aborts the operation but keeps all redis writes
already performed, so every mutating operation returns a `Res` carrying the
final store both on success and on failure.
-/

namespace CoinBook

/-- Currency amounts: Python floats, modelled as exact rationals. -/
abbrev Amount := ℚ

/-- A JSON record stored in redis: the funds blob `{"amount": .., "units": ..}`
written by `set_funds`, or the position blob (the trade dictionary plus
`open_timestamp`) written by `make_buy`; `extra` is the strategy-supplied
payload beyond `currency`/`amount`. -/
inductive Rec where
  | funds (amount : Amount) (units : String)
  | position (currency : String) (amount : Amount) (openTimestamp : String)
      (extra : List (String × String))
deriving DecidableEq, Repr

/-- `record.get('amount')`: both record shapes carry an `amount` field. -/
def Rec.amountOf : Rec → Amount
  | .funds a _ => a
  | .position _ a _ _ => a

/-- `record.get('currency')`: a funds blob has no `currency` field; the `None`
it yields renders as the text `None` when formatted into a ticker name. -/
def Rec.currencyOf : Rec → String
  | .funds _ _ => "None"
  | .position c _ _ _ => c

/-- Boolean prefix test on character lists (redis glob pattern `p*` matches
exactly the keys having `p` as a prefix). -/
def chPre : List Char → List Char → Bool
  | [], _ => true
  | _ :: _, [] => false
  | a :: as, b :: bs => a == b && chPre as bs

/-- The redis store: an association list of key/record bindings. -/
structure Store where
  entries : List (String × Rec)
deriving DecidableEq, Repr

/-- `redis.get(k)`: the record bound to `k`, if any. -/
def Store.get (st : Store) (k : String) : Option Rec :=
  (st.entries.find? (fun kv => kv.1 == k)).map (fun kv => kv.2)

/-- `redis.set(k, v)`: rebind `k` to `v` (canonically: drop the old binding,
append the new one). -/
def Store.set (st : Store) (k : String) (v : Rec) : Store :=
  ⟨st.entries.filter (fun kv => !(kv.1 == k)) ++ [(k, v)]⟩

/-- `redis.delete(k)`: drop the binding of `k`. -/
def Store.del (st : Store) (k : String) : Store :=
  ⟨st.entries.filter (fun kv => !(kv.1 == k))⟩

/-- `redis.keys(pattern=p ++ '*')`: all stored keys carrying the prefix `p`. -/
def Store.keysMatching (st : Store) (p : String) : List String :=
  (st.entries.filter (fun kv => chPre p.data kv.1.data)).map (fun kv => kv.1)

/-- The redis key `'coinbook-{strategy}-funds'` of the funds record. -/
def fundsKey (strategy : String) : String :=
  "coinbook-" ++ strategy ++ "-funds"

/-- The redis key `'coinbook-{strategy}-position-{pos_hash}'` of a position. -/
def positionKey (strategy posHash : String) : String :=
  "coinbook-" ++ strategy ++ "-position-" ++ posHash

/-- The pattern stem `'coinbook-{strategy}-'` used by `clear_redis_keys`. -/
def nsPat (strategy : String) : String :=
  "coinbook-" ++ strategy ++ "-"

/-- The pattern stem `'coinbook-{strategy}-position-'` used by `get_positions`. -/
def posPat (strategy : String) : String :=
  "coinbook-" ++ strategy ++ "-position-"

/-- The failure modes of the source, by the raise site (spec taxonomy names).
`partialBuyFailure` and `positionIdCollision` appear in the spec's taxonomy
but at no raise site of the source; they are included so that statements
about them can be expressed. -/
inductive Err where
  | missingInitialFunds
  | uninitializedFunds
  | invalidConversion
  | invalidExchangeRate
  | positionNotFound
  | strategyError (msg : String)
  | partialBuyFailure (posId : String)
  | positionIdCollision
deriving DecidableEq, Repr

/-- Outcome of a state-mutating operation: Python exceptions propagate but
redis writes already made persist, so both constructors carry the store. -/
inductive Res where
  | ok (st : Store)
  | err (e : Err) (st : Store)
deriving DecidableEq, Repr

/-- The store after the operation, whether it succeeded or raised. -/
def Res.store : Res → Store
  | .ok st => st
  | .err _ st => st

/-- The error raised by the operation, if any. -/
def Res.errorOf : Res → Option Err
  | .ok _ => none
  | .err e _ => some e

/-- `true` iff the operation returned without raising. -/
def Res.isOk : Res → Bool
  | .ok _ => true
  | .err _ _ => false

/-- A trade directive returned by `evaluate_coin`: a dictionary with at least
`currency` and `amount`, plus arbitrary extra keys. -/
structure Trade where
  currency : String
  amount : Amount
  extra : List (String × String)
deriving DecidableEq, Repr

/-- The external collaborators of `CoinBook`: the bittrex ticker lookup
(`get_ticker(t)['result']['Last']`), the sha256-derived position hash
`hashlib.sha256(currency + timestamp).hexdigest()[:20]` (kept abstract), and
the strategy-supplied `evaluate_coin`. -/
structure Env where
  oracle : String → Option Amount
  hashFn : String → String → String
  evalCoin : String → Except Err (Option Trade)

/-! ### Concrete fixtures for evaluating the operations on closed inputs -/

/-- A concrete oracle quoting only the BTC-ETH pair, at rate 4. -/
def oracleW : String → Option Amount
  | "BTC-ETH" => some 4
  | _ => none

/-- A concrete oracle quoting a zero rate for the BTC-ZRO pair. -/
def oracleZero : String → Option Amount
  | "BTC-ZRO" => some 0
  | _ => none

/-- A concrete oracle quoting a negative rate for the BTC-ETH pair. -/
def oracleNeg : String → Option Amount
  | "BTC-ETH" => some (-3)
  | _ => none

/-- A concrete stand-in for the truncated sha256 position hash. -/
def hashW : String → String → String := fun c ts => c ++ ts

/-- A concrete strategy evaluator: buys 1 ETH on coins `c1` and `c3`, raises
on `c2`, skips everything else. -/
def evalW : String → Except Err (Option Trade)
  | "c1" => .ok (some ⟨"ETH", 1, []⟩)
  | "c2" => .error (.strategyError "boom")
  | "c3" => .ok (some ⟨"ETH", 1, []⟩)
  | _ => .ok none

/-- Concrete collaborators with live ETH quotes. -/
def envW : Env := ⟨oracleW, hashW, evalW⟩

/-- Concrete collaborators whose oracle has no quotes at all. -/
def envNR : Env := ⟨fun _ => none, hashW, evalW⟩

/-- A concrete trade directive: 2 ETH. -/
def tradeETH : Trade := ⟨"ETH", 2, []⟩

/-- A store holding only the strategy `s` funds record, at 10 BTC. -/
def stFunds : Store := ⟨[("coinbook-s-funds", .funds 10 "BTC")]⟩

/-- A 3-coin market where `evalW` buys on the first and third coins and
raises on the second. -/
def coins3 : List (String × String) := [("c1", "t1"), ("c2", "t2"), ("c3", "t3")]

/-- A store for strategy `s` with a stale position, funds, and a foreign key. -/
def stDirty : Store :=
  ⟨[("coinbook-s-position-old", .position "ETH" 1 "T0" []),
    ("coinbook-s-funds", .funds 3 "BTC"),
    ("unrelated-key", .funds 9 "BTC")]⟩

/-- A store where the key `make_buy` will derive for an ETH trade at
timestamp `T` is already occupied by an open position. -/
def stC8 : Store :=
  ⟨[("coinbook-s-position-ETHT", .position "ETH" 5 "OLD" []),
    ("coinbook-s-funds", .funds 10 "BTC")]⟩

/-- Funds records of the namespaces `a`, `a-b` and `b` in one store. -/
def stC9 : Store :=
  ⟨[("coinbook-a-funds", .funds 5 "BTC"),
    ("coinbook-a-b-funds", .funds 7 "BTC"),
    ("coinbook-b-funds", .funds 8 "BTC")]⟩

/-- `CoinBook.get_funds`: `json.loads(redis.get('coinbook-{s}-funds'))` then
`.get('amount')`.  A missing record makes `json.loads(None)` raise
(spec name `UninitializedFunds`). -/
def get_funds (strategy : String) (st : Store) : Except Err Amount :=
  match st.get (fundsKey strategy) with
  | none => .error .uninitializedFunds
  | some r => .ok r.amountOf

/-- `CoinBook.set_funds`: writes `{"amount": amount, "units": "BTC"}` at the
funds key, with no validation of sign or magnitude. -/
def set_funds (strategy : String) (amount : Amount) (st : Store) : Store :=
  st.set (fundsKey strategy) (.funds amount "BTC")

/-- `CoinBook.convert_units`: rejects pairs where neither currency is BTC,
then looks up the ticker `BTC-{other}`; a falsy `Last` price (`None` or `0`)
raises `'Invalid Exchange Rate'`; otherwise `amount / rate` when the source
is BTC, `amount * rate` when the target is BTC. -/
def convert_units (oracle : String → Option Amount) (amount : Amount)
    (sourceCurrency targetCurrency : String) : Except Err Amount :=
  if sourceCurrency ≠ "BTC" ∧ targetCurrency ≠ "BTC" then
    .error .invalidConversion
  else if sourceCurrency = "BTC" then
    match oracle ("BTC-" ++ targetCurrency) with
    | none => .error .invalidExchangeRate
    | some rate =>
        if rate = 0 then .error .invalidExchangeRate
        else .ok (amount / rate)
  else
    match oracle ("BTC-" ++ sourceCurrency) with
    | none => .error .invalidExchangeRate
    | some rate =>
        if rate = 0 then .error .invalidExchangeRate
        else .ok (amount * rate)

/-- `CoinBook.clear_redis_keys`: list the keys matching
`'coinbook-{strategy}-*'` and delete each of them. -/
def clear_redis_keys (strategy : String) (st : Store) : Store :=
  (st.keysMatching (nsPat strategy)).foldl Store.del st

/-- `CoinBook.get_positions`: the keys matching
`'coinbook-{strategy}-position-*'`. -/
def get_positions (strategy : String) (st : Store) : List String :=
  st.keysMatching (posPat strategy)

/-- `CoinBook.__init__` (store effects): if the funds record is absent or
`reset_funds` is set, require a truthy `initial_funds` (`None`, `0` and `0.0`
are all falsy and raise `'You do not have any funds ...'`), then clear the
strategy's keys and seed the funds record. -/
def coinbook_init (strategy : String) (initialFunds : Option Amount)
    (resetFunds : Bool) (st : Store) : Res :=
  if (st.get (fundsKey strategy)).isNone || resetFunds then
    match initialFunds with
    | none => .err .missingInitialFunds st
    | some a =>
        if a = 0 then .err .missingInitialFunds st
        else .ok (set_funds strategy a (clear_redis_keys strategy st))
  else .ok st

/-- The spec's `resetNamespace(ns, initialFunds)`: constructing the ledger
with `reset_funds=True` and the given `initial_funds`. -/
def reset_namespace (strategy : String) (initialFunds : Amount)
    (st : Store) : Res :=
  coinbook_init strategy (some initialFunds) true st

/-- `CoinBook.make_buy`: derive the position key from the hash of
`(currency, timestamp)`, unconditionally `redis.set` the position record
(the trade dictionary plus `open_timestamp`), then read the funds, convert
the trade amount from its currency to BTC, and write the debited funds.
A raise in the funds read or the conversion leaves the position written. -/
def make_buy (env : Env) (strategy timestamp : String) (st : Store)
    (trade : Trade) : Res :=
  let posHash := env.hashFn trade.currency timestamp
  let pk := positionKey strategy posHash
  let st1 := st.set pk (.position trade.currency trade.amount timestamp trade.extra)
  match get_funds strategy st1 with
  | .error e => .err e st1
  | .ok currentFunds =>
      match convert_units env.oracle trade.amount trade.currency "BTC" with
      | .error e => .err e st1
      | .ok valueBtc => .ok (set_funds strategy (currentFunds - valueBtc) st1)

/-- `CoinBook.make_sell`: `positionId` is the full redis key.  Read the
position (`json.loads(None)` raises on a missing key, before any write),
delete it, then convert its amount to BTC, read the funds and write the
credited funds. -/
def make_sell (env : Env) (strategy : String) (st : Store)
    (positionId : String) : Res :=
  match st.get positionId with
  | none => .err .positionNotFound st
  | some pd =>
      let st1 := st.del positionId
      match convert_units env.oracle pd.amountOf pd.currencyOf "BTC" with
      | .error e => .err e st1
      | .ok valueBtc =>
          match get_funds strategy st1 with
          | .error e => .err e st1
          | .ok currentFunds => .ok (set_funds strategy (currentFunds + valueBtc) st1)

/-- `CoinBook.crawl`: for each market-summary coin, ask `evaluate_coin`; on a
truthy trade directive call `make_buy`.  The loop body has no exception
handling, so the first raise aborts the remaining iterations.  Each iteration
carries the `datetime.now()` timestamp `make_buy` would draw. -/
def crawl (env : Env) (strategy : String) (st : Store) :
    List (String × String) → Res
  | [] => .ok st
  | (coin, timestamp) :: rest =>
      match env.evalCoin coin with
      | .error e => .err e st
      | .ok none => crawl env strategy st rest
      | .ok (some trade) =>
          match make_buy env strategy timestamp st trade with
          | .ok st1 => crawl env strategy st1 rest
          | .err e st1 => .err e st1

/-! ### Prefix-test lemmas -/

theorem chPre_append_cancel (l m n : List Char) :
    chPre (l ++ m) (l ++ n) = chPre m n := by
  induction l with
  | nil => rfl
  | cons a l ih => simp [chPre, ih]

theorem chPre_self_append (l n : List Char) : chPre l (l ++ n) = true := by
  have h := chPre_append_cancel l [] n
  rw [List.append_nil] at h
  rw [h]
  rfl

theorem data_fundsKey (s : String) :
    (fundsKey s).data = (nsPat s).data ++ "funds".data := by
  simp [fundsKey, nsPat, String.data_append, List.append_assoc]

theorem data_positionKey (s h : String) :
    (positionKey s h).data = (nsPat s).data ++ ("position-".data ++ h.data) := by
  simp [positionKey, nsPat, String.data_append, List.append_assoc]

theorem data_positionKey_posPat (s h : String) :
    (positionKey s h).data = (posPat s).data ++ h.data := by
  simp [positionKey, posPat, String.data_append]

theorem nsPat_pre_fundsKey (s : String) :
    chPre (nsPat s).data (fundsKey s).data = true := by
  rw [data_fundsKey]
  exact chPre_self_append _ _

theorem nsPat_pre_positionKey (s h : String) :
    chPre (nsPat s).data (positionKey s h).data = true := by
  rw [data_positionKey]
  exact chPre_self_append _ _

theorem posPat_pre_positionKey (s h : String) :
    chPre (posPat s).data (positionKey s h).data = true := by
  rw [data_positionKey_posPat]
  exact chPre_self_append _ _

theorem positionKey_ne_fundsKey (s h : String) :
    positionKey s h ≠ fundsKey s := by
  intro he
  have hd : (positionKey s h).data.length = (fundsKey s).data.length :=
    congrArg (fun t => t.data.length) he
  rw [data_positionKey, data_fundsKey] at hd
  simp [List.length_append] at hd

/-! ### Store lemmas -/

theorem find?_filter_of_imp {α : Type} (p q : α → Bool) (l : List α)
    (h : ∀ x, p x = true → q x = true) :
    (l.filter q).find? p = l.find? p := by
  induction l with
  | nil => rfl
  | cons a l ih =>
    cases hq : q a with
    | true =>
      rw [List.filter_cons_of_pos hq]
      rw [List.find?_cons, List.find?_cons]
      cases hp : p a <;> simp [ih]
    | false =>
      rw [List.filter_cons_of_neg (by simp [hq])]
      have hp : p a = false := by
        cases hpa : p a
        · rfl
        · rw [h a hpa] at hq; cases hq
      rw [List.find?_cons, hp, ih]

theorem get_set_self (st : Store) (k : String) (v : Rec) :
    (st.set k v).get k = some v := by
  unfold Store.get Store.set
  rw [List.find?_append]
  have h1 : (st.entries.filter (fun kv => !(kv.1 == k))).find?
      (fun kv => kv.1 == k) = none := by
    apply List.find?_eq_none.mpr
    intro x hx
    have := List.of_mem_filter hx
    simp at this ⊢
    exact this
  rw [h1]
  simp

theorem get_set_ne (st : Store) (k k' : String) (v : Rec) (h : k' ≠ k) :
    (st.set k v).get k' = st.get k' := by
  unfold Store.get Store.set
  rw [List.find?_append]
  have hb : (k == k') = false := by
    simp
    exact fun he => absurd he.symm h
  have h1 : ([(k, v)].find? (fun kv => kv.1 == k')) = none := by
    simp [List.find?_cons, hb]
  rw [h1]
  have h2 : (st.entries.filter (fun kv => !(kv.1 == k))).find?
      (fun kv => kv.1 == k') = st.entries.find? (fun kv => kv.1 == k') := by
    apply find?_filter_of_imp
    intro x hx
    simp at hx ⊢
    rw [hx]
    exact h
  rw [h2]
  cases st.entries.find? (fun kv => kv.1 == k') <;> rfl

theorem get_del_self (st : Store) (k : String) : (st.del k).get k = none := by
  unfold Store.get Store.del
  have h1 : (st.entries.filter (fun kv => !(kv.1 == k))).find?
      (fun kv => kv.1 == k) = none := by
    apply List.find?_eq_none.mpr
    intro x hx
    have := List.of_mem_filter hx
    simp at this ⊢
    exact this
  rw [h1]
  rfl

theorem get_del_ne (st : Store) (k k' : String) (h : k' ≠ k) :
    (st.del k).get k' = st.get k' := by
  unfold Store.get Store.del
  rw [find?_filter_of_imp]
  intro x hx
  simp at hx ⊢
  rw [hx]
  exact h

theorem chPre_of_append_pre (l m n : List Char)
    (h : chPre (l ++ m) n = true) : chPre l n = true := by
  induction l generalizing n with
  | nil => rfl
  | cons a l ih =>
    cases n with
    | nil => cases h
    | cons b n =>
      simp [chPre] at h ⊢
      exact ⟨h.1, ih n h.2⟩

theorem data_posPat (s : String) :
    (posPat s).data = (nsPat s).data ++ "position-".data := by
  simp [posPat, nsPat, String.data_append, List.append_assoc]

theorem posPat_not_pre_fundsKey (s : String) :
    chPre (posPat s).data (fundsKey s).data = false := by
  rw [data_posPat, data_fundsKey, chPre_append_cancel]
  decide

/-! ### `clear_redis_keys` as a filter on the entries -/

theorem foldl_del_entries (ks : List String) (st : Store) :
    (ks.foldl Store.del st).entries =
      st.entries.filter (fun kv => !(ks.contains kv.1)) := by
  induction ks generalizing st with
  | nil => simp
  | cons k ks ih =>
    rw [List.foldl_cons, ih]
    show (st.del k).entries.filter _ = _
    unfold Store.del
    rw [List.filter_filter]
    apply List.filter_congr
    intro x _
    by_cases hxk : x.1 = k <;> simp [List.contains_cons, Bool.and_comm, hxk]

theorem contains_keysMatching (st : Store) (p : String) (kv : String × Rec)
    (hm : kv ∈ st.entries) :
    (st.keysMatching p).contains kv.1 = chPre p.data kv.1.data := by
  cases h : chPre p.data kv.1.data with
  | true =>
    apply List.elem_iff.mpr
    unfold Store.keysMatching
    exact List.mem_map.mpr ⟨kv, List.mem_filter.mpr ⟨hm, h⟩, rfl⟩
  | false =>
    cases hc : (st.keysMatching p).contains kv.1 with
    | false => rfl
    | true =>
      exfalso
      have hmem := List.elem_iff.mp hc
      unfold Store.keysMatching at hmem
      obtain ⟨kv', hkv', he⟩ := List.mem_map.mp hmem
      have h2 := (List.mem_filter.mp hkv').2
      rw [he, h] at h2
      cases h2

theorem clear_entries (s : String) (st : Store) :
    (clear_redis_keys s st).entries =
      st.entries.filter (fun kv => !(chPre (nsPat s).data kv.1.data)) := by
  unfold clear_redis_keys
  rw [foldl_del_entries]
  apply List.filter_congr
  intro x hx
  rw [contains_keysMatching st (nsPat s) x hx]

theorem get_clear_of_not_pre (s : String) (st : Store) (k : String)
    (h : chPre (nsPat s).data k.data = false) :
    (clear_redis_keys s st).get k = st.get k := by
  have himp : ∀ x : String × Rec, (x.1 == k) = true →
      (!(chPre (nsPat s).data x.1.data)) = true := by
    intro x hx
    simp at hx
    rw [hx, h]
    rfl
  show ((clear_redis_keys s st).entries.find? (fun kv => kv.1 == k)).map _ = _
  rw [clear_entries, find?_filter_of_imp _ _ _ himp]
  rfl

/-! ### `convert_units` and `get_funds` evaluation lemmas -/

theorem convert_to_btc (o : String → Option Amount) (a : Amount) (c : String)
    (r : Amount) (hc : c ≠ "BTC") (hr : o ("BTC-" ++ c) = some r)
    (hr0 : r ≠ 0) : convert_units o a c "BTC" = .ok (a * r) := by
  unfold convert_units
  simp [hc, hr, hr0]

theorem convert_from_btc (o : String → Option Amount) (a : Amount) (t : String)
    (r : Amount) (ht : t ≠ "BTC") (hr : o ("BTC-" ++ t) = some r)
    (hr0 : r ≠ 0) : convert_units o a "BTC" t = .ok (a / r) := by
  unfold convert_units
  simp [ht, hr, hr0]

theorem convert_both_non_btc (o : String → Option Amount) (a : Amount)
    (src tgt : String) (hs : src ≠ "BTC") (ht : tgt ≠ "BTC") :
    convert_units o a src tgt = .error .invalidConversion := by
  unfold convert_units
  simp [hs, ht]

theorem convert_error_cases (o : String → Option Amount) (a : Amount)
    (src tgt : String) (e : Err)
    (h : convert_units o a src tgt = .error e) :
    e = .invalidConversion ∨ e = .invalidExchangeRate := by
  unfold convert_units at h
  split at h
  · exact Or.inl (Except.error.inj h).symm
  · split at h
    · split at h
      · exact Or.inr (Except.error.inj h).symm
      · split at h
        · exact Or.inr (Except.error.inj h).symm
        · cases h
    · split at h
      · exact Or.inr (Except.error.inj h).symm
      · split at h
        · exact Or.inr (Except.error.inj h).symm
        · cases h

theorem get_funds_eq (s : String) (F : Amount) (u : String) (st : Store)
    (h : st.get (fundsKey s) = some (.funds F u)) :
    get_funds s st = .ok F := by
  unfold get_funds
  rw [h]
  rfl

theorem get_funds_set_position (s ph : String) (st : Store) (r : Rec) :
    get_funds s (st.set (positionKey s ph) r) = get_funds s st := by
  unfold get_funds
  rw [get_set_ne st (positionKey s ph) (fundsKey s) r
    (positionKey_ne_fundsKey s ph).symm]

/-! ### `make_buy` evaluation lemmas -/

theorem make_buy_ok (env : Env) (s ts : String) (st : Store) (tr : Trade)
    (F r : Amount) (hc : tr.currency ≠ "BTC")
    (hF : st.get (fundsKey s) = some (.funds F "BTC"))
    (hr : env.oracle ("BTC-" ++ tr.currency) = some r) (hr0 : r ≠ 0) :
    make_buy env s ts st tr =
      .ok (set_funds s (F - tr.amount * r)
        (st.set (positionKey s (env.hashFn tr.currency ts))
          (.position tr.currency tr.amount ts tr.extra))) := by
  have h1 : get_funds s (st.set (positionKey s (env.hashFn tr.currency ts))
      (.position tr.currency tr.amount ts tr.extra)) = .ok F := by
    rw [get_funds_set_position]
    exact get_funds_eq s F "BTC" st hF
  have h2 : convert_units env.oracle tr.amount tr.currency "BTC" =
      .ok (tr.amount * r) := convert_to_btc env.oracle tr.amount tr.currency r hc hr hr0
  unfold make_buy
  simp only [h1, h2]

theorem make_buy_convert_err (env : Env) (s ts : String) (st : Store)
    (tr : Trade) (F : Amount) (u : String) (e : Err)
    (hF : st.get (fundsKey s) = some (.funds F u))
    (hconv : convert_units env.oracle tr.amount tr.currency "BTC" = .error e) :
    make_buy env s ts st tr =
      .err e (st.set (positionKey s (env.hashFn tr.currency ts))
        (.position tr.currency tr.amount ts tr.extra)) := by
  have h1 : get_funds s (st.set (positionKey s (env.hashFn tr.currency ts))
      (.position tr.currency tr.amount ts tr.extra)) = .ok F := by
    rw [get_funds_set_position]
    exact get_funds_eq s F u st hF
  unfold make_buy
  simp only [h1, hconv]

/-! ### `reset_namespace` evaluation lemmas -/

theorem reset_ok (s : String) (f : Amount) (st : Store) (hf : f ≠ 0) :
    reset_namespace s f st =
      .ok (set_funds s f (clear_redis_keys s st)) := by
  unfold reset_namespace coinbook_init
  simp [hf]

theorem set_funds_clear_entries (s : String) (f : Amount) (st : Store) :
    (set_funds s f (clear_redis_keys s st)).entries =
      (clear_redis_keys s st).entries ++ [(fundsKey s, .funds f "BTC")] := by
  have hfix : (clear_redis_keys s st).entries.filter
      (fun kv => !(kv.1 == fundsKey s)) = (clear_redis_keys s st).entries := by
    apply List.filter_eq_self.mpr
    intro x hx
    rw [clear_entries] at hx
    have h2 := (List.mem_filter.mp hx).2
    cases hxk : (x.1 == fundsKey s) with
    | false => rfl
    | true =>
      exfalso
      have hx1 : x.1 = fundsKey s := by simpa using hxk
      rw [hx1, nsPat_pre_fundsKey] at h2
      cases h2
  unfold set_funds Store.set
  rw [hfix]

theorem store_ext (st1 st2 : Store) (h : st1.entries = st2.entries) :
    st1 = st2 := by
  cases st1
  cases st2
  cases h
  rfl

theorem clear_after_reset (s : String) (f : Amount) (st : Store) :
    clear_redis_keys s (set_funds s f (clear_redis_keys s st)) =
      clear_redis_keys s st := by
  apply store_ext
  rw [clear_entries, set_funds_clear_entries, List.filter_append]
  have h1 : (clear_redis_keys s st).entries.filter
      (fun kv => !(chPre (nsPat s).data kv.1.data)) =
      (clear_redis_keys s st).entries := by
    apply List.filter_eq_self.mpr
    intro x hx
    rw [clear_entries] at hx
    exact (List.mem_filter.mp hx).2
  have h2 : ([((fundsKey s), Rec.funds f "BTC")].filter
      (fun kv => !(chPre (nsPat s).data kv.1.data))) = [] := by
    simp [nsPat_pre_fundsKey]
  rw [h1, h2, List.append_nil, clear_entries]

theorem reset_idem_core (s : String) (f : Amount) (st : Store) (hf : f ≠ 0) :
    reset_namespace s f (set_funds s f (clear_redis_keys s st)) =
      .ok (set_funds s f (clear_redis_keys s st)) := by
  rw [reset_ok s f _ hf, clear_after_reset]

theorem keysMatching_after_reset (s : String) (f : Amount) (st : Store) :
    (set_funds s f (clear_redis_keys s st)).keysMatching (nsPat s) =
      [fundsKey s] := by
  unfold Store.keysMatching
  rw [set_funds_clear_entries, List.filter_append]
  have h1 : (clear_redis_keys s st).entries.filter
      (fun kv => chPre (nsPat s).data kv.1.data) = [] := by
    apply List.filter_eq_nil_iff.mpr
    intro x hx
    rw [clear_entries] at hx
    have h2 := (List.mem_filter.mp hx).2
    simp only [Bool.not_eq_true'] at h2
    simp [h2]
  have h2 : ([((fundsKey s), Rec.funds f "BTC")].filter
      (fun kv => chPre (nsPat s).data kv.1.data)) =
      [((fundsKey s), Rec.funds f "BTC")] := by
    simp [nsPat_pre_fundsKey]
  rw [h1, h2, List.nil_append]
  rfl

theorem positions_after_reset (s : String) (f : Amount) (st : Store) :
    get_positions s (set_funds s f (clear_redis_keys s st)) = [] := by
  unfold get_positions Store.keysMatching
  rw [set_funds_clear_entries, List.filter_append]
  have h1 : (clear_redis_keys s st).entries.filter
      (fun kv => chPre (posPat s).data kv.1.data) = [] := by
    apply List.filter_eq_nil_iff.mpr
    intro x hx
    rw [clear_entries] at hx
    have h2 := (List.mem_filter.mp hx).2
    simp only [Bool.not_eq_true'] at h2
    intro h3
    have h4 : chPre (nsPat s).data x.1.data = true := by
      apply chPre_of_append_pre (nsPat s).data "position-".data
      rw [← data_posPat]
      exact h3
    rw [h2] at h4
    cases h4
  have h2 : ([((fundsKey s), Rec.funds f "BTC")].filter
      (fun kv => chPre (posPat s).data kv.1.data)) = [] := by
    simp [posPat_not_pre_fundsKey]
  rw [h1, h2, List.nil_append]
  rfl

theorem funds_after_reset (s : String) (f : Amount) (st : Store) :
    (set_funds s f (clear_redis_keys s st)).get (fundsKey s) =
      some (.funds f "BTC") := by
  unfold set_funds
  exact get_set_self (clear_redis_keys s st) (fundsKey s) (.funds f "BTC")

theorem reset_preserves_unrelated_key (s : String) (f : Amount) (st : Store)
    (k : String) (h : chPre (nsPat s).data k.data = false) :
    (reset_namespace s f st).store.get k = st.get k := by
  by_cases hf : f = 0
  · subst hf
    unfold reset_namespace coinbook_init
    simp [Res.store]
  · rw [reset_ok s f st hf]
    show (set_funds s f (clear_redis_keys s st)).get k = st.get k
    unfold set_funds
    have hk : k ≠ fundsKey s := by
      intro he
      rw [he, nsPat_pre_fundsKey] at h
      cases h
    rw [get_set_ne _ _ _ _ hk]
    exact get_clear_of_not_pre s st k h

theorem make_buy_store_get_pos (env : Env) (s ts : String) (st : Store)
    (tr : Trade) :
    (make_buy env s ts st tr).store.get
      (positionKey s (env.hashFn tr.currency ts)) =
      some (.position tr.currency tr.amount ts tr.extra) := by
  unfold make_buy
  dsimp only []
  split
  · exact get_set_self st _ _
  · split
    · exact get_set_self st _ _
    · show (set_funds s _ _).get _ = _
      unfold set_funds
      rw [get_set_ne _ _ _ _ (positionKey_ne_fundsKey s _)]
      exact get_set_self st _ _

theorem make_buy_error_cases (env : Env) (s ts : String) (st : Store)
    (tr : Trade) (e : Err)
    (h : (make_buy env s ts st tr).errorOf = some e) :
    e = .uninitializedFunds ∨ e = .invalidConversion ∨
      e = .invalidExchangeRate := by
  unfold make_buy at h
  dsimp only [] at h
  split at h
  · rename_i e' hg
    have he : e' = e := by
      simp [Res.errorOf] at h
      exact h
    unfold get_funds at hg
    split at hg
    · rw [← he]
      exact Or.inl (Except.error.inj hg).symm
    · cases hg
  · split at h
    · rename_i e' hc
      have he : e' = e := by
        simp [Res.errorOf] at h
        exact h
      rw [← he]
      exact Or.inr (convert_error_cases env.oracle tr.amount tr.currency "BTC" e' hc)
    · simp [Res.errorOf] at h

/-! ### The claims -/

/-- C2: for every amount and pair of currencies, if the source is BTC, the
target is not, and the oracle quotes a positive rate `r` for the resolved
pair, `convert_units` returns `amount / r`; if the target is BTC, the source
is not, and the oracle quotes a positive rate `r`, it returns `amount * r`;
and if neither currency is BTC it always fails with the invalid-conversion
error, whatever the amount and the oracle. -/
theorem claim_C2_convert_directions (o : String → Option Amount) (a : Amount)
    (S T : String) :
    (S = "BTC" → T ≠ "BTC" → ∀ r : Amount, o ("BTC-" ++ T) = some r →
      0 < r → convert_units o a S T = .ok (a / r)) ∧
    (T = "BTC" → S ≠ "BTC" → ∀ r : Amount, o ("BTC-" ++ S) = some r →
      0 < r → convert_units o a S T = .ok (a * r)) ∧
    (S ≠ "BTC" → T ≠ "BTC" →
      convert_units o a S T = .error .invalidConversion) := by
  refine ⟨?_, ?_, ?_⟩
  · intro hS hT r hr hrpos
    subst hS
    exact convert_from_btc o a T r hT hr hrpos.ne'
  · intro hT hS r hr hrpos
    subst hT
    exact convert_to_btc o a S r hS hr hrpos.ne'
  · intro hS hT
    exact convert_both_non_btc o a S T hS hT

/-- C2 witness: concrete conversions in each direction at oracle rate 4. -/
theorem claim_C2_convert_directions_witness :
    convert_units oracleW 6 "BTC" "ETH" = .ok (6 / 4) ∧
    convert_units oracleW 6 "ETH" "BTC" = .ok (6 * 4) ∧
    convert_units oracleW 6 "ETH" "DOGE" = .error .invalidConversion :=
  ⟨(claim_C2_convert_directions oracleW 6 "BTC" "ETH").1 rfl (by decide) 4 rfl
      (by decide),
    (claim_C2_convert_directions oracleW 6 "ETH" "BTC").2.1 rfl (by decide) 4 rfl
      (by decide),
    (claim_C2_convert_directions oracleW 6 "ETH" "DOGE").2.2 (by decide)
      (by decide)⟩

/-- C3 counterexample: the guard in `convert_units` is the truthiness test
`if not exchange_rate`, which lets a negative rate through: with the oracle
quoting `-3` for BTC-ETH, converting 2 ETH to BTC returns `2 * -3` computed
from the negative rate instead of raising the invalid-exchange-rate error. -/
theorem claim_C3_counterexample :
    oracleNeg "BTC-ETH" = some (-3) ∧ ((-3 : Amount) < 0) ∧
    convert_units oracleNeg 2 "ETH" "BTC" = .ok (2 * -3) ∧
    (Except.ok (2 * -3 : Amount) : Except Err Amount) ≠
      .error .invalidExchangeRate :=
  ⟨rfl, by decide, rfl, fun h => Except.noConfusion h⟩

/-- C3 (amended): in a convert call where exactly one currency is BTC, an
absent or zero oracle rate raises the invalid-exchange-rate error (no default
rate is substituted); a negative rate, however, is not rejected and the
result is computed from it. -/
theorem claim_C3_no_or_zero_rate (o : String → Option Amount) (a : Amount)
    (S T : String) :
    (S = "BTC" → T ≠ "BTC" → (o ("BTC-" ++ T) = none ∨ o ("BTC-" ++ T) = some 0) →
      convert_units o a S T = .error .invalidExchangeRate) ∧
    (T = "BTC" → S ≠ "BTC" → (o ("BTC-" ++ S) = none ∨ o ("BTC-" ++ S) = some 0) →
      convert_units o a S T = .error .invalidExchangeRate) := by
  constructor
  · intro hS hT hr
    subst hS
    unfold convert_units
    rcases hr with hr | hr <;> simp [hT, hr]
  · intro hT hS hr
    subst hT
    unfold convert_units
    rcases hr with hr | hr <;> simp [hS, hr]

/-- C3 witness: an absent rate and a zero rate both raise. -/
theorem claim_C3_no_or_zero_rate_witness :
    convert_units envNR.oracle 5 "BTC" "ETH" = .error .invalidExchangeRate ∧
    convert_units oracleZero 5 "ZRO" "BTC" = .error .invalidExchangeRate :=
  ⟨(claim_C3_no_or_zero_rate envNR.oracle 5 "BTC" "ETH").1 rfl (by decide)
      (Or.inl rfl),
    (claim_C3_no_or_zero_rate oracleZero 5 "ZRO" "BTC").2 rfl (by decide)
      (Or.inr rfl)⟩

/-- C6: selling a position id with no record in the store fails with the
position-not-found failure (in the source, `json.loads(None)` raising before
any write), and the whole store — the funds record and every position of the
namespace — is exactly what it was. -/
theorem claim_C6_sell_missing_id (env : Env) (s : String) (st : Store)
    (positionId : String) (h : st.get positionId = none) :
    make_sell env s st positionId = .err .positionNotFound st := by
  unfold make_sell
  rw [h]

/-- C6 witness: selling an absent id under strategy `s` leaves the store. -/
theorem claim_C6_sell_missing_id_witness :
    make_sell envW "s" stFunds "coinbook-s-position-nope" =
      .err .positionNotFound stFunds :=
  claim_C6_sell_missing_id envW "s" stFunds "coinbook-s-position-nope" rfl

/-- C10: constructing the ledger for a namespace with no funds record and an
explicit initial amount of zero fails with the missing-initial-funds error,
exactly as an absent initial amount does: `if not initial_funds` treats `0`
and `0.0` as falsy, so zero is never accepted as an initial balance. -/
theorem claim_C10_zero_initial_funds (s : String) (st : Store)
    (h : st.get (fundsKey s) = none) :
    coinbook_init s (some 0) false st = .err .missingInitialFunds st ∧
    coinbook_init s none false st = .err .missingInitialFunds st := by
  unfold coinbook_init
  simp [h]

/-- C10 witness: on the empty store, zero and absent initial funds fail. -/
theorem claim_C10_zero_initial_funds_witness :
    coinbook_init "s" (some 0) false ⟨[]⟩ =
      .err .missingInitialFunds ⟨[]⟩ ∧
    coinbook_init "s" none false ⟨[]⟩ =
      .err .missingInitialFunds ⟨[]⟩ :=
  claim_C10_zero_initial_funds "s" ⟨[]⟩ rfl

/-- C1 counterexample: `make_buy` debits `convert_units(a, C, 'BTC')`, the
target-is-BTC direction, which multiplies by the BTC-C rate.  At funds 10,
rate 4 and a 2-ETH trade the funds end at `10 - 2 * 4`, not at the claimed
`F - a / R = 10 - 2 / 4`. -/
theorem claim_C1_counterexample :
    get_funds "s" (make_buy envW "s" "T" stFunds tradeETH).store =
      .ok (10 - 2 * 4) ∧
    (10 - 2 * 4 : Amount) ≠ 10 - 2 / 4 :=
  ⟨rfl, by norm_num⟩

/-- C1 (amended): with an initialized funds record of amount `F` and a
positive oracle rate `R` for BTC-C, buying `{currency: C, amount: a}` with
`C ≠ BTC` succeeds, stores a position record with currency `C` and amount
`a`, and leaves the funds at `F - a * R` (the conversion to the base
multiplies by the rate; the claimed `F - a / R` is the other direction). -/
theorem claim_C1_buy_updates_funds (env : Env) (s ts : String) (st : Store)
    (C : String) (a F R : Amount) (extra : List (String × String))
    (hC : C ≠ "BTC") (hF : st.get (fundsKey s) = some (.funds F "BTC"))
    (hR : env.oracle ("BTC-" ++ C) = some R) (hRpos : 0 < R) :
    (make_buy env s ts st ⟨C, a, extra⟩).isOk = true ∧
    (make_buy env s ts st ⟨C, a, extra⟩).store.get
      (positionKey s (env.hashFn C ts)) = some (.position C a ts extra) ∧
    get_funds s (make_buy env s ts st ⟨C, a, extra⟩).store =
      .ok (F - a * R) := by
  have hb := make_buy_ok env s ts st ⟨C, a, extra⟩ F R hC hF hR hRpos.ne'
  rw [hb]
  refine ⟨rfl, ?_, ?_⟩
  · show (set_funds s (F - a * R) _).get (positionKey s (env.hashFn C ts)) = _
    unfold set_funds
    rw [get_set_ne _ _ _ _ (positionKey_ne_fundsKey s (env.hashFn C ts))]
    exact get_set_self st (positionKey s (env.hashFn C ts)) _
  · show get_funds s (set_funds s (F - a * R) _) = _
    apply get_funds_eq s (F - a * R) "BTC"
    unfold set_funds
    exact get_set_self _ (fundsKey s) _

/-- C1 witness: the amended claim at funds 10, rate 4, a 2-ETH trade. -/
theorem claim_C1_buy_updates_funds_witness :
    (make_buy envW "s" "T" stFunds ⟨"ETH", 2, []⟩).isOk = true ∧
    (make_buy envW "s" "T" stFunds ⟨"ETH", 2, []⟩).store.get
      (positionKey "s" (envW.hashFn "ETH" "T")) =
      some (.position "ETH" 2 "T" []) ∧
    get_funds "s" (make_buy envW "s" "T" stFunds ⟨"ETH", 2, []⟩).store =
      .ok (10 - 2 * 4) :=
  claim_C1_buy_updates_funds envW "s" "T" stFunds "ETH" 2 10 4 []
    (by decide) rfl rfl (by decide)

/-- C5 counterexample: with no oracle quote, the buy stores the position and
then raises the raw invalid-exchange-rate error from `convert_units` — not a
partial-buy failure carrying the created position's id (`ETHT` here): the
source has no such wrapping anywhere. -/
theorem claim_C5_counterexample :
    (make_buy envNR "s" "T" stFunds tradeETH).errorOf =
      some .invalidExchangeRate ∧
    some Err.invalidExchangeRate ≠ some (Err.partialBuyFailure "ETHT") ∧
    (make_buy envNR "s" "T" stFunds tradeETH).store.get
      "coinbook-s-position-ETHT" = some (.position "ETH" 2 "T" []) :=
  ⟨rfl, by decide, rfl⟩

/-- C5 (amended): when the conversion raises after the position write, the
created position record remains stored, the funds record is untouched and no
rollback happens — but the failure surfaced is the underlying conversion
error itself (invalid-conversion or invalid-exchange-rate), not a distinct
partial-buy failure carrying the position id. -/
theorem claim_C5_orphaned_position (env : Env) (s ts : String) (st : Store)
    (tr : Trade) (F : Amount) (u : String) (e : Err)
    (hF : st.get (fundsKey s) = some (.funds F u))
    (hconv : convert_units env.oracle tr.amount tr.currency "BTC" = .error e) :
    make_buy env s ts st tr =
      .err e (st.set (positionKey s (env.hashFn tr.currency ts))
        (.position tr.currency tr.amount ts tr.extra)) ∧
    (make_buy env s ts st tr).store.get
      (positionKey s (env.hashFn tr.currency ts)) =
      some (.position tr.currency tr.amount ts tr.extra) ∧
    (make_buy env s ts st tr).store.get (fundsKey s) = st.get (fundsKey s) ∧
    (e = .invalidConversion ∨ e = .invalidExchangeRate) := by
  have hb := make_buy_convert_err env s ts st tr F u e hF hconv
  rw [hb]
  refine ⟨rfl, ?_, ?_, convert_error_cases env.oracle tr.amount tr.currency "BTC" e hconv⟩
  · exact get_set_self st (positionKey s (env.hashFn tr.currency ts)) _
  · exact get_set_ne st (positionKey s (env.hashFn tr.currency ts)) (fundsKey s) _
      (positionKey_ne_fundsKey s (env.hashFn tr.currency ts)).symm

/-- C5 witness: the amended claim with an oracle that has no quotes. -/
theorem claim_C5_orphaned_position_witness :
    make_buy envNR "s" "T" stFunds tradeETH =
      .err .invalidExchangeRate
        (stFunds.set (positionKey "s" (envNR.hashFn tradeETH.currency "T"))
          (.position tradeETH.currency tradeETH.amount "T" tradeETH.extra)) ∧
    (make_buy envNR "s" "T" stFunds tradeETH).store.get
      (positionKey "s" (envNR.hashFn tradeETH.currency "T")) =
      some (.position tradeETH.currency tradeETH.amount "T" tradeETH.extra) ∧
    (make_buy envNR "s" "T" stFunds tradeETH).store.get (fundsKey "s") =
      stFunds.get (fundsKey "s") ∧
    (Err.invalidExchangeRate = .invalidConversion ∨
      Err.invalidExchangeRate = .invalidExchangeRate) :=
  claim_C5_orphaned_position envNR "s" "T" stFunds tradeETH 10 "BTC"
    .invalidExchangeRate rfl rfl

/-- C8 counterexample: the position key derived for an ETH trade at
timestamp `T` is already occupied, yet the buy succeeds and replaces the old
record — no existence check, no position-id-collision failure. -/
theorem claim_C8_counterexample :
    stC8.get "coinbook-s-position-ETHT" = some (.position "ETH" 5 "OLD" []) ∧
    (make_buy envW "s" "T" stC8 tradeETH).isOk = true ∧
    (make_buy envW "s" "T" stC8 tradeETH).store.get
      "coinbook-s-position-ETHT" = some (.position "ETH" 2 "T" []) ∧
    (Rec.position "ETH" 5 "OLD" [] : Rec) ≠ .position "ETH" 2 "T" [] :=
  ⟨rfl, rfl, rfl, by decide⟩

/-- C8 (amended): `make_buy` performs no existence check on the computed
position key: even when the key already names an open position, the write
happens unconditionally, silently replacing the old record, and no
position-id-collision failure is ever raised. -/
theorem claim_C8_silent_overwrite (env : Env) (s ts : String) (st : Store)
    (tr : Trade) (old : Rec)
    (_hcol : st.get (positionKey s (env.hashFn tr.currency ts)) = some old) :
    (make_buy env s ts st tr).store.get
      (positionKey s (env.hashFn tr.currency ts)) =
      some (.position tr.currency tr.amount ts tr.extra) ∧
    (make_buy env s ts st tr).errorOf ≠ some .positionIdCollision := by
  refine ⟨make_buy_store_get_pos env s ts st tr, ?_⟩
  intro hcontra
  rcases make_buy_error_cases env s ts st tr _ hcontra with he | he | he <;>
    cases he

/-- C8 witness: the amended claim on the occupied key of `stC8`. -/
theorem claim_C8_silent_overwrite_witness :
    (make_buy envW "s" "T" stC8 tradeETH).store.get
      (positionKey "s" (envW.hashFn tradeETH.currency "T")) =
      some (.position tradeETH.currency tradeETH.amount "T" tradeETH.extra) ∧
    (make_buy envW "s" "T" stC8 tradeETH).errorOf ≠
      some .positionIdCollision :=
  claim_C8_silent_overwrite envW "s" "T" stC8 tradeETH
    (.position "ETH" 5 "OLD" []) rfl

/-- C4 counterexample: a 3-coin cycle where coin `c2`'s evaluation raises.
The loop body of `crawl` has no exception handling: coin `c1`'s buy executes
(its position is stored), but the raise at `c2` aborts the cycle, coin `c3`
is never evaluated or bought, and the raise propagates instead of any
failure list being reported. -/
theorem claim_C4_counterexample :
    (crawl envW "s" stFunds coins3).isOk = false ∧
    (crawl envW "s" stFunds coins3).errorOf = some (.strategyError "boom") ∧
    (crawl envW "s" stFunds coins3).store.get "coinbook-s-position-ETHt1" =
      some (.position "ETH" 1 "t1" []) ∧
    (crawl envW "s" stFunds coins3).store.get "coinbook-s-position-ETHt3" =
      none :=
  ⟨rfl, rfl, rfl, rfl⟩

/-- C4 (amended): a raise while evaluating a coin aborts the cycle
immediately: the error propagates to the caller with the store as it stood,
and none of the remaining coins is evaluated or bought (there is no
cycle-item failure list). -/
theorem claim_C4_cycle_aborts (env : Env) (s : String) (st : Store)
    (coin ts : String) (rest : List (String × String)) (e : Err)
    (he : env.evalCoin coin = .error e) :
    crawl env s st ((coin, ts) :: rest) = .err e st := by
  unfold crawl
  rw [he]

/-- C4 witness: the aborting cycle at coin `c2`, with coins after it. -/
theorem claim_C4_cycle_aborts_witness :
    crawl envW "s" stFunds [("c2", "t2"), ("c3", "t3")] =
      .err (.strategyError "boom") stFunds :=
  claim_C4_cycle_aborts envW "s" stFunds "c2" "t2" [("c3", "t3")]
    (.strategyError "boom") rfl

/-- C7: `resetNamespace` (construction with `reset_funds=True`) is
idempotent for a nonzero initial amount: running it twice from any prior
store contents ends in the same state as running it once, and that state has
exactly one key under the namespace pattern — the funds record with the
given amount — and zero position keys. -/
theorem claim_C7_reset_idempotent (s : String) (f : Amount) (st : Store)
    (hf : f ≠ 0) :
    reset_namespace s f (reset_namespace s f st).store =
      reset_namespace s f st ∧
    (reset_namespace s f st).isOk = true ∧
    (reset_namespace s f st).store.get (fundsKey s) =
      some (.funds f "BTC") ∧
    (reset_namespace s f st).store.keysMatching (nsPat s) = [fundsKey s] ∧
    get_positions s (reset_namespace s f st).store = [] := by
  rw [reset_ok s f st hf]
  exact ⟨reset_idem_core s f st hf, rfl, funds_after_reset s f st,
    keysMatching_after_reset s f st, positions_after_reset s f st⟩

/-- C7 witness: resetting strategy `s` to 10 over a dirty store. -/
theorem claim_C7_reset_idempotent_witness :
    reset_namespace "s" 10 (reset_namespace "s" 10 stDirty).store =
      reset_namespace "s" 10 stDirty ∧
    (reset_namespace "s" 10 stDirty).isOk = true ∧
    (reset_namespace "s" 10 stDirty).store.get (fundsKey "s") =
      some (.funds 10 "BTC") ∧
    (reset_namespace "s" 10 stDirty).store.keysMatching (nsPat "s") =
      [fundsKey "s"] ∧
    get_positions "s" (reset_namespace "s" 10 stDirty).store = [] :=
  claim_C7_reset_idempotent "s" 10 stDirty (by decide)

/-- C9 counterexample: the namespaces `a` and `a-b` are distinct, but the
key pattern `coinbook-a-*` of `a` matches every key of `a-b`: resetting `a`
deletes the funds record of `a-b`. -/
theorem claim_C9_counterexample :
    stC9.get "coinbook-a-b-funds" = some (.funds 7 "BTC") ∧
    (reset_namespace "a" 10 stC9).isOk = true ∧
    (reset_namespace "a" 10 stC9).store.get "coinbook-a-b-funds" = none :=
  ⟨rfl, rfl, rfl⟩

/-- C9 (amended): a reset of namespace A leaves every key that does not
carry A's pattern stem `coinbook-A-` unchanged — so distinct namespaces do
not interfere as long as neither's stem is a prefix of the other's keys.
When A's stem is a proper prefix of another namespace's stem (as `a` and
`a-b`), that namespace's records match A's pattern and are deleted. -/
theorem claim_C9_reset_frame (sA : String) (f : Amount) (st : Store)
    (k : String) (h : chPre (nsPat sA).data k.data = false) :
    (reset_namespace sA f st).store.get k = st.get k :=
  reset_preserves_unrelated_key sA f st k h

/-- C9 witness: resetting `a` leaves the funds record of `b` untouched. -/
theorem claim_C9_reset_frame_witness :
    (reset_namespace "a" 10 stC9).store.get "coinbook-b-funds" =
      stC9.get "coinbook-b-funds" :=
  claim_C9_reset_frame "a" 10 stC9 "coinbook-b-funds" (by decide)

end CoinBook
